import Mathlib

/-!
Verification of the Analysis-web-app repository (a React SPA over a thin
REST API for spreadsheet upload, pagination, pivot tables and charts).

The client-side code under `src/frontend` and the unnamed page/slice files
are embedded directly.  JavaScript strings are modelled as Lean `String`
with ASCII-level case folding (`Char.toLower`), which is the level at which
the matching heuristics in the source operate (`/[^a-z0-9]/`, `/week|month/i`).
A JavaScript string is falsy exactly when it is empty; `undefined`/`null`
results of `Array.prototype.find` and of `x || null` are modelled as
`Option`.

The backend HTTP handlers (`/api/get-records`, `/api/pivot`) are not part of
the repository snapshot; the definitions for them below are modelled from
the specification and are marked as such in their doc comments.
-/

/-- Character-list prefix test: `isLeadOf needle hay` is true when `needle`
is an initial segment of `hay`. -/
def isLeadOf : List Char → List Char → Bool
  | [], _ => true
  | _ :: _, [] => false
  | a :: as, b :: bs => a == b && isLeadOf as bs

/-- Character-list substring test, scanning every suffix of the haystack. -/
def containsL : List Char → List Char → Bool
  | [], needle => needle.isEmpty
  | c :: t, needle => isLeadOf needle (c :: t) || containsL t needle

/-- Embedding of JavaScript `hay.includes(needle)` (exact substring). -/
def containsSub (hay needle : String) : Bool := containsL hay.data needle.data

/-- Embedding of JavaScript `s.toLowerCase()` at the ASCII level: each
character is lowered individually. -/
def lowerStr (s : String) : String := String.mk (s.data.map Char.toLower)

/-- A character kept by the regex replacement `replace(/[^a-z0-9]/g, '')`
applied after lowercasing: a lowercase ASCII letter or a digit. -/
def isKeptChar (c : Char) : Bool := c.isLower || c.isDigit

/-- Embedding of `s.toLowerCase().replace(/[^a-z0-9]/g, '')` from
`findBestMatch` in the Graphs page (src/unnamed/part_005, lines 42-43). -/
def normalizeLabel (s : String) : String :=
  String.mk ((lowerStr s).data.filter isKeptChar)

/-- JavaScript truthiness applied to the result of `Array.prototype.find`
over strings: `undefined` and the empty string are both falsy, any other
string is truthy. -/
def truthyOpt (o : Option String) : Option String :=
  match o with
  | some s => if s = "" then none else some s
  | none => none

/-- Embedding of `findBestMatch` from the Graphs page
(src/unnamed/part_005, lines 33-44): resolve a requested axis label against
the available column names by, in order, exact match (`if (exact)`),
case-insensitive match (`if (ci)`), and normalized match
(`find(...) || null`); `null` when the field list is empty or no rule
matches.  Each guard is a JavaScript truthiness check, so a found column
whose name is the empty string counts as not found: the first two rules
then fall through to the next rule and the last yields `null`. -/
def findBestMatch (availableFields : List String) (label : String) : Option String :=
  if availableFields.isEmpty then none
  else
    match truthyOpt (availableFields.find? (fun f => f == label)) with
    | some f => some f
    | none =>
      match truthyOpt (availableFields.find? (fun f => lowerStr f == lowerStr label)) with
      | some f => some f
      | none =>
        truthyOpt (availableFields.find? (fun f => normalizeLabel f == normalizeLabel label))

/-- The fixed numeric-hint substrings used by `mapY` in `generateAllCharts`
(src/unnamed/part_005, line 127). -/
def numericHints : List String := ["kar", "zarar", "cost", "total", "mh", "rate"]

/-- A field name containing one of the numeric-hint substrings,
case-insensitively (src/unnamed/part_005, line 128). -/
def hasNumericHint (f : String) : Bool :=
  numericHints.any (fun h => containsSub (lowerStr f) h)

/-- Embedding of the regex test `/week|month/i.test(f)` used by `mapX`
(src/unnamed/part_005, line 118). -/
def weekMonthTest (f : String) : Bool :=
  containsSub (lowerStr f) "week" || containsSub (lowerStr f) "month"

/-- Embedding of `availableFields[0] || null`: the first field, or `null`
when the list is empty or its first element is the empty string (falsy). -/
def headOrNull (fields : List String) : Option String :=
  match fields with
  | [] => none
  | f :: _ => if f = "" then none else some f

/-- Embedding of the `mapX` closure in `generateAllCharts`
(src/unnamed/part_005, lines 115-122): a truthy label different from the
placeholder `"(Week / Month)"` is returned unchanged; otherwise the first
field matching `/week|month/i`, else `availableFields[0] || null`.  (The
week/month `find` result is checked for truthiness in the source; a found
field cannot be the empty string because it contains a pattern letter, so
the check is omitted here.) -/
def mapX (xAxis : String) (availableFields : List String) : Option String :=
  if xAxis ≠ "" ∧ xAxis ≠ "(Week / Month)" then some xAxis
  else
    match availableFields.find? weekMonthTest with
    | some f => some f
    | none => headOrNull availableFields

/-- Embedding of the `mapY` closure in `generateAllCharts`
(src/unnamed/part_005, lines 124-130): a truthy label is returned
unchanged; otherwise the first field containing a numeric-hint substring,
else `availableFields[0] || null`.  (A found hint field cannot be the
empty string, so the source's truthiness check on it is omitted.) -/
def mapY (yAxis : String) (availableFields : List String) : Option String :=
  if yAxis ≠ "" then some yAxis
  else
    match availableFields.find? hasNumericHint with
    | some f => some f
    | none => headOrNull availableFields

/-- When some element of the list satisfies the predicate, `find?` returns
some element. -/
theorem find?_isSome_of_exists {α : Type} (p : α → Bool) (l : List α)
    (h : ∃ x ∈ l, p x = true) : ∃ a, l.find? p = some a := by
  cases hf : l.find? p with
  | some a => exact ⟨a, rfl⟩
  | none =>
    obtain ⟨x, hx, hp⟩ := h
    rw [List.find?_eq_none] at hf
    exact absurd hp (by simpa using hf x hx)

/-- Lowering a string character by character yields the empty string only
for the empty string. -/
theorem lowerStr_empty_iff (s : String) : lowerStr s = "" ↔ s = "" := by
  obtain ⟨d⟩ := s
  cases d with
  | nil => constructor <;> intro h <;> decide
  | cons c cs =>
    constructor
    · intro h
      exfalso
      have hd : ((c :: cs).map Char.toLower) = ("" : String).data :=
        congrArg String.data h
      simp at hd
    · intro h
      exfalso
      have hd : (c :: cs) = ("" : String).data := congrArg String.data h
      simp at hd

/-- A string surviving the truthiness check is non-empty. -/
theorem truthyOpt_ne_empty {o : Option String} {f : String}
    (h : truthyOpt o = some f) : f ≠ "" := by
  cases o with
  | none => simp [truthyOpt] at h
  | some s =>
    simp only [truthyOpt] at h
    by_cases hs : s = ""
    · rw [if_pos hs] at h
      exact absurd h (by simp)
    · rw [if_neg hs] at h
      have hsf : s = f := by simpa using h
      rw [← hsf]
      exact hs

/-- C1 counterexample: JavaScript falsiness breaks the claimed rule order
on empty-string column names.  With `fields = [""]` and `label = ""` the
claim's rule (a) finds a column equal to the label, so the claim predicts
that column; `findBestMatch` returns `null` because the found `""` fails
the `if (exact)` truthiness guard (and likewise the later guards).  With
`fields = ["", "x"]` and `label = "--"` no exact or case-insensitive match
exists and the claim's rule (c) finds the column `""` (both normalize to
the empty string), so the claim predicts that column; the source's
`find(...) || null` turns the falsy `""` into `null`. -/
theorem findBestMatch_claim_cex :
    ("" ∈ [""] ∧ findBestMatch [""] "" = none ∧ findBestMatch [""] "" ≠ some "")
    ∧ (("" ≠ "--" ∧ lowerStr "" ≠ lowerStr "--"
        ∧ normalizeLabel "" = normalizeLabel "--")
       ∧ findBestMatch ["", "x"] "--" = none
       ∧ findBestMatch ["", "x"] "--" ≠ some "") := by decide

/-- C1 amended: on a non-empty list of available columns, `findBestMatch`
resolves by exact match first, then case-insensitive match, then
normalized match, a later rule consulted only when every earlier rule
finds no column — except that, by JavaScript falsiness, a found column
named by the empty string counts as not found (such an exact or
case-insensitive hit can only arise for the empty label, and an
empty-string normalized hit yields `null`); in particular the resolution
never returns the empty string. -/
theorem findBestMatch_resolution (fields : List String) (label : String)
    (hne : fields ≠ []) :
    (label ∈ fields → label ≠ "" → findBestMatch fields label = some label)
    ∧ (label ∉ fields →
        (∃ f ∈ fields, lowerStr f = lowerStr label) →
        ∃ f, findBestMatch fields label = some f ∧ f ∈ fields
          ∧ lowerStr f = lowerStr label)
    ∧ (label ∉ fields →
        (∀ f ∈ fields, lowerStr f ≠ lowerStr label) →
        normalizeLabel label ≠ "" →
        (∃ f ∈ fields, normalizeLabel f = normalizeLabel label) →
        ∃ f, findBestMatch fields label = some f ∧ f ∈ fields
          ∧ normalizeLabel f = normalizeLabel label)
    ∧ (∀ f, findBestMatch fields label = some f → f ≠ "") := by
  have hem : fields.isEmpty = false := by
    cases fields with
    | nil => exact absurd rfl hne
    | cons a l => rfl
  refine ⟨?_, ?_, ?_, ?_⟩
  · intro hmem hl
    obtain ⟨f, hf⟩ :=
      find?_isSome_of_exists (fun f => f == label) fields ⟨label, hmem, by simp⟩
    have hfl : f = label := by simpa using List.find?_some hf
    subst hfl
    simp [findBestMatch, hem, hf, truthyOpt, hl]
  · intro hnm hex
    have h1 : fields.find? (fun f => f == label) = none := by
      rw [List.find?_eq_none]
      intro x hx
      simp only [beq_iff_eq]
      rintro rfl
      exact hnm hx
    obtain ⟨g, hg, hgl⟩ := hex
    obtain ⟨f, hf⟩ :=
      find?_isSome_of_exists (fun f => lowerStr f == lowerStr label) fields
        ⟨g, hg, by simp [hgl]⟩
    have hfl : lowerStr f = lowerStr label := by simpa using List.find?_some hf
    have hfm : f ∈ fields := List.mem_of_find?_eq_some hf
    have hfne : f ≠ "" := by
      rintro rfl
      have hll : lowerStr label = "" := by
        rw [← hfl]
        decide
      rw [(lowerStr_empty_iff label).mp hll] at hnm
      exact hnm hfm
    refine ⟨f, ?_, hfm, hfl⟩
    simp [findBestMatch, hem, h1, hf, truthyOpt, hfne]
  · intro hnm hci hnl hex
    have h1 : fields.find? (fun f => f == label) = none := by
      rw [List.find?_eq_none]
      intro x hx
      simp only [beq_iff_eq]
      rintro rfl
      exact hnm hx
    have h2 : fields.find? (fun f => lowerStr f == lowerStr label) = none := by
      rw [List.find?_eq_none]
      intro x hx
      simpa using hci x hx
    obtain ⟨g, hg, hgl⟩ := hex
    obtain ⟨f, hf⟩ :=
      find?_isSome_of_exists (fun f => normalizeLabel f == normalizeLabel label)
        fields ⟨g, hg, by simp [hgl]⟩
    have hfl : normalizeLabel f = normalizeLabel label := by
      simpa using List.find?_some hf
    have hfne : f ≠ "" := by
      rintro rfl
      have : normalizeLabel label = "" := by
        rw [← hfl]
        decide
      exact hnl this
    refine ⟨f, ?_, List.mem_of_find?_eq_some hf, hfl⟩
    simp [findBestMatch, hem, h1, h2, hf, truthyOpt, hfne]
  · intro f hf
    rw [findBestMatch] at hf
    by_cases he : fields.isEmpty
    · rw [if_pos he] at hf
      exact absurd hf (by simp)
    · rw [if_neg he] at hf
      cases h1 : truthyOpt (fields.find? (fun f => f == label)) with
      | some g =>
        rw [h1] at hf
        have hgf : g = f := by simpa using hf
        rw [← hgf]
        exact truthyOpt_ne_empty h1
      | none =>
        rw [h1] at hf
        cases h2 : truthyOpt (fields.find? (fun f => lowerStr f == lowerStr label)) with
        | some g =>
          rw [h2] at hf
          have hgf : g = f := by simpa using hf
          rw [← hgf]
          exact truthyOpt_ne_empty h2
        | none =>
          rw [h2] at hf
          exact truthyOpt_ne_empty hf

/-- Witness for C1's amended theorem at the concrete input
`fields = ["Week"]`, `label = "week"`. -/
theorem findBestMatch_resolution_witness :
    (["Week"] ≠ ([] : List String))
    ∧ (("week" ∈ ["Week"] → "week" ≠ "" → findBestMatch ["Week"] "week" = some "week")
       ∧ ("week" ∉ ["Week"] →
           (∃ f ∈ ["Week"], lowerStr f = lowerStr "week") →
           ∃ f, findBestMatch ["Week"] "week" = some f ∧ f ∈ ["Week"]
             ∧ lowerStr f = lowerStr "week")
       ∧ ("week" ∉ ["Week"] →
           (∀ f ∈ ["Week"], lowerStr f ≠ lowerStr "week") →
           normalizeLabel "week" ≠ "" →
           (∃ f ∈ ["Week"], normalizeLabel f = normalizeLabel "week") →
           ∃ f, findBestMatch ["Week"] "week" = some f ∧ f ∈ ["Week"]
             ∧ normalizeLabel f = normalizeLabel "week")
       ∧ (∀ f, findBestMatch ["Week"] "week" = some f → f ≠ "")) :=
  ⟨by decide, findBestMatch_resolution ["Week"] "week" (by decide)⟩

/-- C2 counterexample: with available columns `["alpha"]` and requested
Y-axis label `"zzz"`, the label matches no column by any of the three
rules and no column carries a numeric hint, so the claim predicts the
first column `"alpha"`; `mapY` instead returns the unmatched label
`"zzz"` unchanged. -/
theorem mapY_claim_cex :
    ("alpha" ≠ "zzz" ∧ lowerStr "alpha" ≠ lowerStr "zzz"
      ∧ normalizeLabel "alpha" ≠ normalizeLabel "zzz"
      ∧ hasNumericHint "alpha" = false)
    ∧ mapY "zzz" ["alpha"] = some "zzz"
    ∧ mapY "zzz" ["alpha"] ≠ some "alpha" := by decide

/-- C2 amended: a non-empty Y-axis label is passed through unchanged
without being matched against the available columns; only an empty label
triggers the fallback, which picks a column containing a numeric-hint
substring, else the first available column (none when there is no column
or the first column name is empty). -/
theorem mapY_resolution (yAxis : String) (fields : List String) :
    (yAxis ≠ "" → mapY yAxis fields = some yAxis)
    ∧ ((∃ f ∈ fields, hasNumericHint f = true) →
        ∃ f, mapY "" fields = some f ∧ f ∈ fields ∧ hasNumericHint f = true)
    ∧ ((∀ f ∈ fields, hasNumericHint f = false) →
        mapY "" fields = headOrNull fields) := by
  refine ⟨?_, ?_, ?_⟩
  · intro h
    rw [mapY, if_pos h]
  · intro hex
    obtain ⟨f, hf⟩ := find?_isSome_of_exists hasNumericHint fields hex
    refine ⟨f, ?_, List.mem_of_find?_eq_some hf, List.find?_some hf⟩
    simp [mapY, hf]
  · intro hall
    have h0 : fields.find? hasNumericHint = none := by
      rw [List.find?_eq_none]
      intro x hx
      simp [hall x hx]
    simp [mapY, h0]

/-- Witness for C2's amended theorem at concrete inputs. -/
theorem mapY_resolution_witness :
    ("Total Cost" ∈ ["Name", "Total Cost"] ∧ hasNumericHint "Total Cost" = true)
    ∧ (∃ f, mapY "" ["Name", "Total Cost"] = some f ∧ f ∈ ["Name", "Total Cost"]
        ∧ hasNumericHint f = true)
    ∧ ("KAR/ZARAR" ≠ "" ∧ mapY "KAR/ZARAR" ["Name"] = some "KAR/ZARAR") :=
  ⟨⟨by decide, by decide⟩,
   (mapY_resolution "" ["Name", "Total Cost"]).2.1 ⟨"Total Cost", by decide, by decide⟩,
   ⟨by decide, (mapY_resolution "KAR/ZARAR" ["Name"]).1 (by decide)⟩⟩

/-- C3 counterexample: with available columns `["alpha"]` and requested
X-axis label `"zzz"`, the label matches no column by any of the three
rules and no column matches the week/month pattern, so the claim predicts
the first column `"alpha"`; `mapX` instead returns the unmatched label
`"zzz"` unchanged. -/
theorem mapX_claim_cex :
    ("alpha" ≠ "zzz" ∧ lowerStr "alpha" ≠ lowerStr "zzz"
      ∧ normalizeLabel "alpha" ≠ normalizeLabel "zzz"
      ∧ weekMonthTest "alpha" = false)
    ∧ mapX "zzz" ["alpha"] = some "zzz"
    ∧ mapX "zzz" ["alpha"] ≠ some "alpha" := by decide

/-- C3 amended: a non-empty X-axis label different from the placeholder
`"(Week / Month)"` is passed through unchanged without being matched
against the available columns; only an empty or placeholder label triggers
the fallback, which picks a column matching the week/month pattern, else
the first available column (none when there is no column or the first
column name is empty). -/
theorem mapX_resolution (xAxis : String) (fields : List String) :
    (xAxis ≠ "" → xAxis ≠ "(Week / Month)" → mapX xAxis fields = some xAxis)
    ∧ ((xAxis = "" ∨ xAxis = "(Week / Month)") →
        ((∃ f ∈ fields, weekMonthTest f = true) →
          ∃ f, mapX xAxis fields = some f ∧ f ∈ fields ∧ weekMonthTest f = true)
        ∧ ((∀ f ∈ fields, weekMonthTest f = false) →
            mapX xAxis fields = headOrNull fields)) := by
  constructor
  · intro h1 h2
    rw [mapX, if_pos ⟨h1, h2⟩]
  · intro hx
    have hcond : ¬(xAxis ≠ "" ∧ xAxis ≠ "(Week / Month)") := by
      rcases hx with rfl | rfl <;> simp
    constructor
    · intro hex
      obtain ⟨f, hf⟩ := find?_isSome_of_exists weekMonthTest fields hex
      refine ⟨f, ?_, List.mem_of_find?_eq_some hf, List.find?_some hf⟩
      simp [mapX, if_neg hcond, hf]
    · intro hall
      have h0 : fields.find? weekMonthTest = none := by
        rw [List.find?_eq_none]
        intro x hx'
        simp [hall x hx']
      simp [mapX, if_neg hcond, h0]

/-- Witness for C3's amended theorem at concrete inputs. -/
theorem mapX_resolution_witness :
    ("Discipline" ≠ "" ∧ "Discipline" ≠ "(Week / Month)"
      ∧ mapX "Discipline" ["Week"] = some "Discipline")
    ∧ (("(Week / Month)" = "" ∨ "(Week / Month)" = "(Week / Month)")
        ∧ ("Week 2" ∈ ["Name", "Week 2"] ∧ weekMonthTest "Week 2" = true)
        ∧ ∃ f, mapX "(Week / Month)" ["Name", "Week 2"] = some f
            ∧ f ∈ ["Name", "Week 2"] ∧ weekMonthTest f = true) :=
  ⟨⟨by decide, by decide,
    (mapX_resolution "Discipline" ["Week"]).1 (by decide) (by decide)⟩,
   ⟨Or.inr rfl, ⟨by decide, by decide⟩,
    ((mapX_resolution "(Week / Month)" ["Name", "Week 2"]).2 (Or.inr rfl)).1
      ⟨"Week 2", by decide, by decide⟩⟩⟩

/-- Modelled from the spec: the backend handler for `GET /api/get-records`
is not under `src/` (only the SPA client that calls it is).  Spec 4.1:
`pages` = ceil(total / per_page), computed here as `(total + per - 1) / per`
in natural-number division. -/
def pagesFor (total per : Nat) : Nat := (total + per - 1) / per

/-- Modelled from the spec: the slice of the filtered record set served for
one page, spec 4.1: `[(page-1)*per_page, page*per_page)`. -/
def pageSlice {α : Type} (items : List α) (page per : Nat) : List α :=
  (items.drop ((page - 1) * per)).take per

/-- Shape of a successful `/api/get-records` response: the page's record
slice, the count of all matches, and the page count. -/
structure PagedResult (α : Type) where
  records : List α
  total : Nat
  pages : Nat
deriving Repr, DecidableEq

/-- Modelled from the spec: the `GET /api/get-records` handler on an
already-filtered record set.  Spec 4.1: `per_page` ≤ 0 is rejected with a
validation error; otherwise the matching subset is sliced to
`[(page-1)*per_page, page*per_page)` and returned together with `total`
and `pages`. -/
def getRecords {α : Type} (items : List α) (page : Nat) (per : Int) :
    Except String (PagedResult α) :=
  if per ≤ 0 then Except.error "per_page must be a positive integer"
  else
    Except.ok
      { records := pageSlice items page per.toNat
        total := items.length
        pages := pagesFor items.length per.toNat }

/-- The page count is zero exactly on an empty record set. -/
theorem pagesFor_eq_zero {n P : Nat} (hP : 0 < P) :
    pagesFor n P = 0 ↔ n = 0 := by
  rw [pagesFor, Nat.div_eq_zero_iff hP]
  omega

/-- Peeling one page off a non-empty record set. -/
theorem pagesFor_succ_sub {n P : Nat} (hP : 0 < P) (hn : 0 < n) :
    pagesFor n P = pagesFor (n - P) P + 1 := by
  rcases le_or_lt n P with h | h
  · have h0 : n - P = 0 := by omega
    have h2 : pagesFor 0 P = 0 := (pagesFor_eq_zero hP).mpr rfl
    rw [h0, h2, pagesFor]
    exact Nat.div_eq_of_lt_le (by omega) (by omega)
  · rw [pagesFor, pagesFor,
      show n + P - 1 = ((n - P) + P - 1) + P by omega,
      Nat.add_div_right _ hP]

/-- `pagesFor n P` is the least number of pages of size `P` covering `n`
records: this is exactly `ceil (n / P)`. -/
theorem pagesFor_is_ceil (n P : Nat) (hP : 0 < P) :
    n ≤ pagesFor n P * P ∧ ∀ m : Nat, n ≤ m * P → pagesFor n P ≤ m := by
  constructor
  · have h := Nat.div_add_mod (n + P - 1) P
    have hr : (n + P - 1) % P < P := Nat.mod_lt _ hP
    rw [pagesFor, Nat.mul_comm]
    omega
  · intro m hm
    have hlt : n + P - 1 < (m + 1) * P := by
      have hexp : (m + 1) * P = m * P + P := by ring
      omega
    have := (Nat.div_lt_iff_lt_mul hP).mpr hlt
    rw [pagesFor]
    omega

/-- Concatenating the page slices `1, ..., pagesFor n P` of any list
reproduces the list. -/
theorem flatten_pageSlices {α : Type} (P : Nat) (hP : 0 < P) :
    ∀ (K : Nat) (l : List α), K = pagesFor l.length P →
      ((List.range K).map (fun i => pageSlice l (i + 1) P)).flatten = l := by
  intro K
  induction K with
  | zero =>
    intro l h
    have : l.length = 0 := (pagesFor_eq_zero hP).mp h.symm
    rw [List.length_eq_zero.mp this]
    rfl
  | succ K ih =>
    intro l h
    have hlen : 0 < l.length := by
      by_contra hc
      have h0 : l.length = 0 := by omega
      have := (pagesFor_eq_zero hP).mpr h0
      omega
    have hK : K = pagesFor (l.drop P).length P := by
      have hrec := pagesFor_succ_sub (n := l.length) hP hlen (P := P)
      rw [List.length_drop]
      omega
    rw [List.range_succ_eq_map, List.map_cons, List.flatten_cons, List.map_map]
    have hmapeq : (List.range K).map ((fun i => pageSlice l (i + 1) P) ∘ Nat.succ)
        = (List.range K).map (fun i => pageSlice (l.drop P) (i + 1) P) := by
      apply List.map_congr_left
      intro i _
      show pageSlice l (Nat.succ i + 1) P = pageSlice (l.drop P) (i + 1) P
      show (l.drop ((Nat.succ i + 1 - 1) * P)).take P
        = ((l.drop P).drop ((i + 1 - 1) * P)).take P
      rw [List.drop_drop]
      have harith : (Nat.succ i + 1 - 1) * P = P + (i + 1 - 1) * P := by
        have e1 : Nat.succ i + 1 - 1 = i + 1 := by omega
        have e2 : i + 1 - 1 = i := by omega
        rw [e1, e2, Nat.succ_mul]
        omega
      rw [harith]
    rw [hmapeq, ih (l.drop P) hK]
    have h01 : pageSlice l (0 + 1) P = l.take P := by
      show (l.drop ((0 + 1 - 1) * P)).take P = l.take P
      simp
    rw [h01]
    exact List.take_append_drop P l

/-- C4: for every filtered record set and every positive `per_page` P, the
modelled `/api/get-records` handler answers every page request with the
spec's slice, reports `pages` as the least number of size-P pages covering
all records (that is, `ceil(N/P)`), and the concatenation of the record
lists of pages 1 through `pages`, in page order, is exactly the full
filtered set — no record duplicated, none omitted. -/
theorem getRecords_pagination (α : Type) (items : List α) (P : Nat) (hP : 0 < P) :
    (∀ page : Nat, getRecords items page (P : Int)
        = Except.ok ⟨pageSlice items page P, items.length, pagesFor items.length P⟩)
    ∧ (items.length ≤ pagesFor items.length P * P
        ∧ ∀ m : Nat, items.length ≤ m * P → pagesFor items.length P ≤ m)
    ∧ ((List.range (pagesFor items.length P)).map
        (fun i => pageSlice items (i + 1) P)).flatten = items := by
  refine ⟨?_, pagesFor_is_ceil items.length P hP, flatten_pageSlices P hP _ items rfl⟩
  intro page
  have hnot : ¬((P : Int) ≤ 0) := by
    simp only [not_le]
    exact_mod_cast hP
  rw [getRecords, if_neg hnot]
  simp

/-- Witness for C4 with three records and two per page. -/
theorem getRecords_pagination_witness :
    (0 < 2)
    ∧ ((∀ page : Nat, getRecords [10, 20, 30] page ((2 : Nat) : Int)
          = Except.ok ⟨pageSlice [10, 20, 30] page 2, 3, 2⟩)
       ∧ (3 ≤ 2 * 2 ∧ ∀ m : Nat, 3 ≤ m * 2 → 2 ≤ m)
       ∧ ((List.range 2).map (fun i => pageSlice [10, 20, 30] (i + 1) 2)).flatten
           = [10, 20, 30]) :=
  ⟨by decide, getRecords_pagination Nat [10, 20, 30] 2 (by decide)⟩

/-- C5: requesting a page number beyond the reported page count succeeds
(no error) with an empty record slice while `total` and `pages` are the
same values reported for page 1; a `per_page` ≤ 0 is rejected with a
validation error. -/
theorem getRecords_overflow_and_validation (α : Type) (items : List α) (P : Nat)
    (hP : 0 < P) (page : Nat) (hpage : pagesFor items.length P < page) :
    (getRecords items page (P : Int)
        = Except.ok ⟨[], items.length, pagesFor items.length P⟩
      ∧ getRecords items 1 (P : Int)
        = Except.ok ⟨pageSlice items 1 P, items.length, pagesFor items.length P⟩)
    ∧ ∀ q : Int, q ≤ 0 →
        getRecords items page q = Except.error "per_page must be a positive integer" := by
  have hall := getRecords_pagination α items P hP
  refine ⟨⟨?_, hall.1 1⟩, ?_⟩
  · have hcov := (pagesFor_is_ceil items.length P hP).1
    have hle : items.length ≤ (page - 1) * P :=
      le_trans hcov (Nat.mul_le_mul_right P (by omega))
    have hslice : pageSlice items page P = [] := by
      rw [pageSlice, List.drop_eq_nil_of_le hle, List.take_nil]
    rw [hall.1 page, hslice]
  · intro q hq
    rw [getRecords, if_pos hq]

/-- Witness for C5: page 5 of a 2-page result set. -/
theorem getRecords_overflow_and_validation_witness :
    (0 < 2) ∧ ((2 : Nat) < 5)
    ∧ ((getRecords [10, 20, 30] 5 ((2 : Nat) : Int) = Except.ok ⟨[], 3, 2⟩
        ∧ getRecords [10, 20, 30] 1 ((2 : Nat) : Int)
            = Except.ok ⟨pageSlice [10, 20, 30] 1 2, 3, 2⟩)
       ∧ ∀ q : Int, q ≤ 0 →
           getRecords [10, 20, 30] 5 q
             = Except.error "per_page must be a positive integer") :=
  ⟨by decide, by decide,
   getRecords_overflow_and_validation Nat [10, 20, 30] 2 (by decide) 5 (by decide)⟩

/-- A cell value in a record: a string, a number, or null (spec section 3,
Record: column name to string, number, or null). Numbers are modelled as
rationals. -/
inductive JSValue where
  | str (s : String)
  | num (q : Rat)
  | null
deriving DecidableEq, Repr

/-- A record row: an open-ended mapping from column names to values. -/
abbrev RecordRow := List (String × JSValue)

/-- Field lookup in a record; a missing key reads as null (spec 4.2 step 1:
missing/null group keys fall into a single bucket). -/
def getField (r : RecordRow) (k : String) : JSValue :=
  match r.find? (fun kv => kv.1 == k) with
  | some kv => kv.2
  | none => JSValue.null

/-- Numeric coercion of a cell: only `num` cells are numeric. -/
def asNum : JSValue → Option Rat
  | .num q => some q
  | _ => none

/-- Numeric coercion used by `sum`: non-numeric counts as 0 (spec 4.2
step 3). -/
def numOrZero (v : JSValue) : Rat := (asNum v).getD 0

/-- The fixed enumerated set of aggregation functions (spec section 3). -/
inductive AggFunc where
  | sum | count | avg | min | max
deriving DecidableEq, Repr

/-- Modelled from the spec: the pivot cell aggregation (spec 4.2 step 3).
`sum` totals with non-numeric as 0; `count` is the row count regardless of
numeric validity; `avg` is sum/count over numeric rows only; `min`/`max`
range over numeric rows only and the cell is null when no numeric row
exists (the spec leaves `avg` of no numeric rows open; null is chosen
here, matching `min`/`max`). -/
def aggregate (f : AggFunc) (vals : List JSValue) : JSValue :=
  match f with
  | .count => JSValue.num (vals.length : Rat)
  | .sum => JSValue.num ((vals.map numOrZero).sum)
  | .avg =>
    match vals.filterMap asNum with
    | [] => JSValue.null
    | q :: qs => JSValue.num ((q :: qs).sum / ((q :: qs).length : Rat))
  | .min =>
    match vals.filterMap asNum with
    | [] => JSValue.null
    | q :: qs => JSValue.num (qs.foldl Min.min q)
  | .max =>
    match vals.filterMap asNum with
    | [] => JSValue.null
    | q :: qs => JSValue.num (qs.foldl Max.max q)

/-- First occurrence of each value, in first-seen order (spec 4.2 step 4:
rows ordered by first-seen order of the group-by value). -/
def dedupFirst (l : List JSValue) : List JSValue :=
  l.foldl (fun acc v => if v ∈ acc then acc else acc ++ [v]) []

/-- Modelled from the spec: the distinct group-by keys, in first-seen
order among the input records (spec 4.2 steps 1 and 4). -/
def groupKeysOf (records : List RecordRow) (g : String) : List JSValue :=
  dedupFirst (records.map (fun r => getField r g))

/-- Modelled from the spec: the partition of the records belonging to one
group-by key (spec 4.2 step 1). -/
def partitionOf (records : List RecordRow) (g : String) (k : JSValue) :
    List RecordRow :=
  records.filter (fun r => getField r g == k)

/-- Modelled from the spec: the distinct split-column values, first-seen
order (spec 4.2 step 2). -/
def splitKeysOf (records : List RecordRow) (c : String) : List JSValue :=
  dedupFirst (records.map (fun r => getField r c))

/-- Modelled from the spec: one output row of the pivot (spec 4.2 steps
2-3).  Without a split column the row holds one aggregated cell per value
field; with a split column the cells range over the cross product of
split-column values and value fields, each aggregating the sub-partition
of the group that carries that split value. -/
def pivotRowFor (records : List RecordRow) (g : String) (split : Option String)
    (values : List String) (f : AggFunc) (k : JSValue) : List JSValue :=
  match split with
  | none =>
    values.map (fun v =>
      aggregate f ((partitionOf records g k).map (fun r => getField r v)))
  | some c =>
    ((splitKeysOf records c).map (fun s =>
      values.map (fun v =>
        aggregate f (((partitionOf records g k).filter
          (fun r => getField r c == s)).map (fun r => getField r v))))).flatten

/-- Modelled from the spec: the `/api/pivot` computation (spec 4.2).  An
empty `values` list or an empty `groupBy` field name is a validation
error and no partial result is produced; otherwise one row is emitted per
distinct group-by key, in first-seen order. -/
def runPivot (records : List RecordRow) (g : String) (split : Option String)
    (values : List String) (f : AggFunc) : Except String (List (List JSValue)) :=
  if values.isEmpty then Except.error "values must not be empty"
  else if g = "" then Except.error "groupBy field is required"
  else Except.ok ((groupKeysOf records g).map (pivotRowFor records g split values f))

/-- Rendering of a split key into an output column name. -/
def showJSValue : JSValue → String
  | .str s => s
  | .num q => toString q
  | .null => "null"

/-- Modelled from the spec: the ordered output column names (spec section
3, Pivot Result; cross product with split values when present). -/
def columnsFor (records : List RecordRow) (g : String) (split : Option String)
    (values : List String) : List String :=
  match split with
  | none => g :: values
  | some c =>
    g :: ((splitKeysOf records c).map
      (fun s => values.map (fun v => showJSValue s ++ "_" ++ v))).flatten

/-- Wire shape of the `/api/pivot` response:
`{success:true, columns, data}` or `{success:false, error}`. -/
inductive PivotResp where
  | ok (columns : List String) (data : List (List JSValue))
  | fail (err : Option String)
deriving DecidableEq, Repr

/-- The `/api/pivot` endpoint as seen by the client: a successful
computation becomes a success payload, a validation error becomes a
failure payload carrying the message. -/
def pivotEndpoint (records : List RecordRow) (g : String) (split : Option String)
    (values : List String) (f : AggFunc) : PivotResp :=
  match runPivot records g split values f with
  | .ok rows => PivotResp.ok (columnsFor records g split values) rows
  | .error e => PivotResp.fail (some e)

/-- The client-side pivot display state in TableAnalysis: the shown result
(columns and data) and the shown error message. -/
structure PivotView where
  resultCols : List String
  resultData : List (List JSValue)
  errMsg : Option String
deriving DecidableEq, Repr

/-- Embedding of the Generate Pivot click handler in TableAnalysis
(src/unnamed/part_007, lines 249-272) as a function of the server
response: a success response replaces the displayed pivot result and
clears the error; a failure response stores `resp.data.error` (or
`'Unknown error'`) and leaves the displayed pivot result untouched. -/
def generatePivotStep (resp : PivotResp) (s : PivotView) : PivotView :=
  match resp with
  | .ok cols data => { resultCols := cols, resultData := data, errMsg := none }
  | .fail e => { s with errMsg := some (e.getD "Unknown error") }

/-- C6: with `count` aggregation and no split column, the pivot row
emitted for each group produced by the group-by step carries as its cell
the number of records in that group's partition, independently of the
value field's content (numeric, non-numeric, or null). -/
theorem pivot_count_eq_group_size (records : List RecordRow) (g v : String) :
    (groupKeysOf records g).map (pivotRowFor records g none [v] AggFunc.count)
      = (groupKeysOf records g).map
          (fun k => [JSValue.num ((partitionOf records g k).length : Rat)]) := by
  apply List.map_congr_left
  intro k _
  simp [pivotRowFor, aggregate, List.length_map]

/-- C7: an empty `values` list or an empty `groupBy` field name makes the
pivot computation return a validation error (no partial result), and on
the resulting error response the client's displayed pivot result is left
unchanged. -/
theorem pivot_validation_error (records : List RecordRow) (g : String)
    (split : Option String) (values : List String) (f : AggFunc)
    (h : values = [] ∨ g = "") :
    (∃ e, runPivot records g split values f = Except.error e)
    ∧ ∀ s : PivotView,
        (generatePivotStep (pivotEndpoint records g split values f) s).resultCols
          = s.resultCols
        ∧ (generatePivotStep (pivotEndpoint records g split values f) s).resultData
          = s.resultData := by
  have herr : ∃ e, runPivot records g split values f = Except.error e := by
    rcases h with rfl | rfl
    · exact ⟨"values must not be empty", rfl⟩
    · refine ⟨if values.isEmpty then "values must not be empty"
        else "groupBy field is required", ?_⟩
      cases hv : values.isEmpty with
      | true => simp [runPivot, hv]
      | false => simp [runPivot, hv]
  obtain ⟨e, he⟩ := herr
  refine ⟨⟨e, he⟩, ?_⟩
  intro s
  rw [pivotEndpoint, he]
  exact ⟨rfl, rfl⟩

/-- Witness for C7 with an empty `values` list. -/
theorem pivot_validation_error_witness :
    (([] : List String) = [] ∨ "Week" = "")
    ∧ ((∃ e, runPivot [] "Week" none [] AggFunc.sum = Except.error e)
       ∧ ∀ s : PivotView,
           (generatePivotStep (pivotEndpoint [] "Week" none [] AggFunc.sum) s).resultCols
             = s.resultCols
           ∧ (generatePivotStep (pivotEndpoint [] "Week" none [] AggFunc.sum) s).resultData
             = s.resultData) :=
  ⟨Or.inl rfl, pivot_validation_error [] "Week" none [] AggFunc.sum (Or.inl rfl)⟩

/-- Embedding of the SPA's axios response interceptor
(src/frontend/src/App.jsx services section, lines 92-103): on an error
response the browser is redirected to the login page exactly when the
status is 401 and the request URL (`error.config?.url || ''`) contains
neither `/api/profile` nor `/api/check-session`. -/
def shouldRedirectToLogin (status : Nat) (url : Option String) : Bool :=
  status == 401 && !containsSub (url.getD "") "/api/profile"
    && !containsSub (url.getD "") "/api/check-session"

/-- Profile payload returned by `GET /api/profile`. -/
structure ProfileData where
  name : String
  role : String
deriving DecidableEq, Repr

/-- Outcome of the `checkSession` thunk as stored by the auth slice. -/
inductive SessionOutcome where
  | authenticated (user role : String)
  | notAuthenticated
  | rejected (msg : String)
deriving DecidableEq, Repr

/-- Embedding of the `checkSession` thunk
(src/frontend/src/store/slices/authSlice.js, lines 49-68): a successful
profile response authenticates; an error response with status 401
resolves to "not authenticated" (fulfilled, not a rejection); any other
error rejects with its message or a generic one. -/
def checkSessionOutcome (resp : Except (Nat × Option String) ProfileData) :
    SessionOutcome :=
  match resp with
  | .ok p => SessionOutcome.authenticated p.name p.role
  | .error (status, msg) =>
    if status == 401 then SessionOutcome.notAuthenticated
    else SessionOutcome.rejected (msg.getD "Session check failed")

/-- C8: a 401 response triggers the global redirect to the login page if
and only if the request URL is not a profile or session-check endpoint,
and a 401 from the profile endpoint during session check resolves to
"not authenticated" rather than an error. -/
theorem interceptor_401_redirect :
    (∀ url : String, shouldRedirectToLogin 401 (some url) = true
        ↔ (containsSub url "/api/profile" = false
            ∧ containsSub url "/api/check-session" = false))
    ∧ ∀ msg : Option String,
        checkSessionOutcome (Except.error (401, msg))
          = SessionOutcome.notAuthenticated := by
  constructor
  · intro url
    simp [shouldRedirectToLogin]
  · intro msg
    rfl

/-- A value stored through the filter slice: JavaScript null, undefined,
a string, or a number. -/
inductive FilterVal where
  | vnull
  | vundef
  | vstr (s : String)
  | vnum (n : Int)
deriving DecidableEq, Repr

/-- The values `setFilter` treats as a removal sentinel:
`value === null || value === undefined || value === ''`
(src/unnamed/part_003, line 14). -/
def isEmptyVal : FilterVal → Bool
  | .vnull => true
  | .vundef => true
  | .vstr s => s == ""
  | .vnum _ => false

/-- The `activeFilters` object, as a field-to-value association list. -/
abbrev ActiveFilters := List (String × FilterVal)

/-- JavaScript `delete activeFilters[field]`. -/
def removeFilterField (field : String) (m : ActiveFilters) : ActiveFilters :=
  m.filter (fun kv => kv.1 != field)

/-- Embedding of the `setFilter` reducer (src/unnamed/part_003, lines
12-19): a null/undefined/empty value deletes the field's entry, any
other value stores it (object-key assignment modelled as
remove-then-append). -/
def setFilterStep (field : String) (value : FilterVal) (m : ActiveFilters) :
    ActiveFilters :=
  if isEmptyVal value then removeFilterField field m
  else removeFilterField field m ++ [(field, value)]

/-- The filter-slice actions the invariant ranges over
(src/unnamed/part_003): `setFilter` and `clearFilters`. -/
inductive FilterAction where
  | setF (field : String) (value : FilterVal)
  | clearF

/-- One reducer step of the filter slice on `activeFilters`. -/
def applyFilterAction (a : FilterAction) (m : ActiveFilters) : ActiveFilters :=
  match a with
  | .setF field value => setFilterStep field value m
  | .clearF => []

/-- A sequence of filter actions applied in dispatch order. -/
def applyFilterActions (acts : List FilterAction) (m : ActiveFilters) :
    ActiveFilters :=
  acts.foldl (fun s a => applyFilterAction a s) m

/-- The slice's initial state: `activeFilters = {}`
(src/unnamed/part_003, line 4). -/
def initialActiveFilters : ActiveFilters := []

/-- Lookup of a field's stored filter value. -/
def lookupFilter (field : String) (m : ActiveFilters) : Option FilterVal :=
  (m.find? (fun kv => kv.1 == field)).map (fun kv => kv.2)

/-- One filter-slice step preserves the no-emptyish-values invariant. -/
theorem applyFilterAction_preserves (a : FilterAction) (m : ActiveFilters)
    (h : ∀ kv ∈ m, isEmptyVal kv.2 = false) :
    ∀ kv ∈ applyFilterAction a m, isEmptyVal kv.2 = false := by
  cases a with
  | clearF =>
    intro kv hkv
    simp [applyFilterAction] at hkv
  | setF field value =>
    intro kv hkv
    simp only [applyFilterAction, setFilterStep] at hkv
    by_cases hv : isEmptyVal value = true
    · rw [if_pos hv] at hkv
      exact h kv (List.mem_of_mem_filter hkv)
    · rw [if_neg hv] at hkv
      rcases List.mem_append.mp hkv with h1 | h2
      · exact h kv (List.mem_of_mem_filter h1)
      · have hkv2 : kv = (field, value) := by simpa using h2
        simp only [Bool.not_eq_true] at hv
        rw [hkv2]
        exact hv

/-- C9: starting from the initial filter state, no sequence of
`setFilter`/`clearFilters` actions can leave `activeFilters` mapping a
field to null, undefined, or the empty string; a `setFilter` with such a
value removes the field's entry instead of storing it. -/
theorem filter_state_invariant :
    (∀ (acts : List FilterAction) (k : String) (v : FilterVal),
        (k, v) ∈ applyFilterActions acts initialActiveFilters →
        isEmptyVal v = false)
    ∧ ∀ (m : ActiveFilters) (field : String) (value : FilterVal),
        isEmptyVal value = true →
        lookupFilter field (applyFilterAction (FilterAction.setF field value) m)
          = none := by
  constructor
  · have main : ∀ (acts : List FilterAction) (m : ActiveFilters),
        (∀ kv ∈ m, isEmptyVal kv.2 = false) →
        ∀ kv ∈ applyFilterActions acts m, isEmptyVal kv.2 = false := by
      intro acts
      induction acts with
      | nil =>
        intro m h
        simpa [applyFilterActions] using h
      | cons a as ih =>
        intro m h
        have hstep : applyFilterActions (a :: as) m
            = applyFilterActions as (applyFilterAction a m) := rfl
        rw [hstep]
        exact ih _ (applyFilterAction_preserves a m h)
    intro acts k v hmem
    exact main acts initialActiveFilters (by simp [initialActiveFilters]) (k, v) hmem
  · intro m field value hv
    show lookupFilter field (setFilterStep field value m) = none
    rw [setFilterStep, if_pos hv, lookupFilter]
    have hnone : (removeFilterField field m).find? (fun kv => kv.1 == field)
        = none := by
      rw [List.find?_eq_none]
      intro kv hkv
      have hne := List.of_mem_filter hkv
      simp only [bne_iff_ne] at hne
      simp [hne]
    rw [hnone]
    rfl

/-- Witness for C9: a stored value is non-emptyish, and setting the empty
string removes the entry. -/
theorem filter_state_invariant_witness :
    (("week", FilterVal.vstr "W1")
        ∈ applyFilterActions [FilterAction.setF "week" (FilterVal.vstr "W1")]
            initialActiveFilters)
    ∧ isEmptyVal (FilterVal.vstr "W1") = false
    ∧ isEmptyVal (FilterVal.vstr "") = true
    ∧ lookupFilter "week"
        (applyFilterAction (FilterAction.setF "week" (FilterVal.vstr ""))
          [("week", FilterVal.vstr "W1")]) = none :=
  ⟨by decide,
   filter_state_invariant.1 [FilterAction.setF "week" (FilterVal.vstr "W1")]
     "week" (FilterVal.vstr "W1") (by decide),
   by decide,
   filter_state_invariant.2 [("week", FilterVal.vstr "W1")] "week"
     (FilterVal.vstr "") (by decide)⟩

/-- The `pagination` sub-state of the data slice
(src/unnamed/part_002, lines 7-12). -/
structure PaginationInfo where
  page : Nat
  per_page : Nat
  total : Nat
  pages : Nat
deriving DecidableEq, Repr

/-- A record held by the data slice: a server-assigned id plus the
open-ended field mapping. -/
structure DataRecord where
  id : Nat
  fields : List (String × JSValue)
deriving DecidableEq, Repr

/-- The data slice state (src/unnamed/part_002, lines 4-15). -/
structure DataState where
  records : List DataRecord
  currentRecord : Option DataRecord
  pagination : PaginationInfo
  loading : Bool
  error : Option String
deriving DecidableEq, Repr

/-- Embedding of the `deleteRecord.fulfilled` reducer
(src/unnamed/part_002, lines 124-126):
`state.records = state.records.filter(r => r.id !== action.payload)`;
no other field of the slice is touched. -/
def deleteRecordFulfilled (deletedId : Nat) (s : DataState) : DataState :=
  { s with records := s.records.filter (fun r => r.id != deletedId) }

/-- C10: the `deleteRecord.fulfilled` reducer removes exactly the records
whose id equals the deleted id; the remaining records keep their relative
order (the new list is a subsequence of the old), and pagination,
loading, error, and currentRecord are unchanged. -/
theorem deleteRecord_removes_exactly (deletedId : Nat) (s : DataState) :
    (∀ r : DataRecord,
        r ∈ (deleteRecordFulfilled deletedId s).records
          ↔ r ∈ s.records ∧ r.id ≠ deletedId)
    ∧ List.Sublist (deleteRecordFulfilled deletedId s).records s.records
    ∧ (deleteRecordFulfilled deletedId s).pagination = s.pagination
    ∧ (deleteRecordFulfilled deletedId s).loading = s.loading
    ∧ (deleteRecordFulfilled deletedId s).error = s.error
    ∧ (deleteRecordFulfilled deletedId s).currentRecord = s.currentRecord := by
  refine ⟨?_, List.filter_sublist s.records, rfl, rfl, rfl, rfl⟩
  intro r
  simp [deleteRecordFulfilled, List.mem_filter]
